import Mathlib

/-!
Shallow embedding of the stable-diffusion inpainting driver
(examples/stable-diffusion-inpaint/main.rs) and proofs about its
specification claims.  Pixel values and tensor entries are modelled by
rationals; strings by lists of characters where Rust string surgery is
involved.
-/

namespace Inpaint

/-! ## Constants (main.rs lines 16-18) -/

def HEIGHT : ℕ := 512

def WIDTH : ℕ := 512

def GUIDANCE_SCALE : ℚ := 7.5

/-! ## Output filename disambiguation (main.rs lines 181-190)

The Rust code matches on `final_image.rsplit_once('.')`: a split at the
last occurrence of the separator, yielding the part before it and the part
after it, or `None` when the separator does not occur. -/

def rsplitOnce (sep : Char) : List Char → Option (List Char × List Char)
  | [] => none
  | ch :: rest =>
    match rsplitOnce sep rest with
    | some (pre, post) => some (ch :: pre, post)
    | none => if ch = sep then some ([], rest) else none

/-- Embeds the filename computation of `run` (lines 181-190): when more than
one sample is requested the 1-based index is spliced in at the last dot;
with no dot the code appends a dot, the index, a dot and the literal
extension png; with a single sample the name is returned unchanged. -/
def outputFilename (finalImage : List Char) (numSamples idx : ℕ) : List Char :=
  if 1 < numSamples then
    match rsplitOnce '.' finalImage with
    | none =>
        finalImage ++ ('.' :: Nat.toDigits 10 (idx + 1)) ++ ('.' :: ['p', 'n', 'g'])
    | some (stemPart, extPart) =>
        stemPart ++ ('.' :: Nat.toDigits 10 (idx + 1)) ++ ('.' :: extPart)
  else finalImage

/-! ## Classifier-free guidance (main.rs lines 169-172)

`noise_pred_uncond + (noise_pred_text - noise_pred_uncond) * GUIDANCE_SCALE`,
applied elementwise; tensors are modelled as functions from an index type. -/

def guidedNoise {ι : Type} (uncond cond : ι → ℚ) : ι → ℚ :=
  fun k => uncond k + (cond k - uncond k) * GUIDANCE_SCALE

/-! ## Device resolution (main.rs lines 111-122) -/

inductive Device where
  | Cpu : Device
  | Cuda : Device
deriving DecidableEq

def cudaIfAvailable (avail : Bool) : Device :=
  if avail then Device.Cuda else Device.Cpu

/-- `cpu_or_cuda` closure: a component is pinned to CPU when the `--cpu`
list contains the literal all or the component name, otherwise it gets
`cuda_if_available`. -/
def cpuOrCuda (cpu : List String) (avail : Bool) (componentName : String) : Device :=
  if cpu.any (fun c => c == "all" || c == componentName) then Device.Cpu
  else cudaIfAvailable avail

/-- Device assignments resolved once before any inference
(lines 120-122): clip, vae, unet in that order. -/
def resolveDevices (cpu : List String) (avail : Bool) : Device × Device × Device :=
  (cpuOrCuda cpu avail "clip", cpuOrCuda cpu avail "vae", cpuOrCuda cpu avail "unet")

/-! ## Prompt selection (main.rs lines 32-34 and 126-128) -/

def defaultPrompt : String := "A fantasy landscape, trending on artstation."

def fallbackPrompt : String :=
  "A very realistic photo of a rusty robot walking on a sandy beach"

/-- Modelled from the spec: the CLI parser (the clap crate, not part of this
repository) attaches a default value to the optional prompt flag, so the
parsed field is always populated: the user value when the flag is given,
the fantasy-landscape default otherwise. -/
def parsedPrompt (cli : Option String) : Option String :=
  some (cli.getD defaultPrompt)

/-- `run` line 126-128: unwrap the optional prompt with the in-function
fallback string. -/
def promptUsed (p : Option String) : String :=
  p.getD fallbackPrompt

/-! ## Rank-3 tensors and mask preparation (main.rs lines 78-90)

`tch::vision::image::load` returns a tensor of shape channels by height by
width.  Entries are rationals; out-of-range indices are harmless junk. -/

structure T3 where
  c : ℕ
  h : ℕ
  w : ℕ
  pix : ℕ → ℕ → ℕ → ℚ

/-- Broadcast index: a dimension of extent 1 is read at index 0. -/
def bcIdx (extent i : ℕ) : ℕ := if extent = 1 then 0 else i

/-- Two extents broadcast together when equal or when either is 1. -/
def bcOk (a b : ℕ) : Prop := a = b ∨ a = 1 ∨ b = 1

instance (a b : ℕ) : Decidable (bcOk a b) := by
  unfold bcOk; infer_instance

/-- Elementwise product with torch broadcasting; `none` on incompatible
shapes. -/
def mulBC (a b : T3) : Option T3 :=
  if bcOk a.c b.c ∧ bcOk a.h b.h ∧ bcOk a.w b.w then
    some ⟨max a.c b.c, max a.h b.h, max a.w b.w,
      fun c i j =>
        a.pix (bcIdx a.c c) (bcIdx a.h i) (bcIdx a.w j) *
        b.pix (bcIdx b.c c) (bcIdx b.h i) (bcIdx b.w j)⟩
  else none

/-- Line 83: `image / 255. * 2. - 1.`. -/
def normalizeImg (t : T3) : T3 :=
  ⟨t.c, t.h, t.w, fun c i j => t.pix c i j / 255 * 2 - 1⟩

/-- Line 86: `mask.mean_dim(Some([1]), true, Float)` — the mean is taken
over dimension 1 of the loaded channels-height-width tensor, that is over
the HEIGHT rows, keeping the dimension with extent 1. -/
def meanDim1 (t : T3) : T3 :=
  ⟨t.c, 1, t.w, fun c _ j => (∑ i in Finset.range t.h, t.pix c i j) / (t.h : ℚ)⟩

/-- Line 87: `mask.ge(122.5).totype(Float)` — elementwise comparison giving
1 or 0. -/
def geThresh (x : ℚ) (t : T3) : T3 :=
  ⟨t.c, t.h, t.w, fun c i j => if x ≤ t.pix c i j then 1 else 0⟩

/-- Line 88: `1 - &mask`. -/
def oneMinus (t : T3) : T3 :=
  ⟨t.c, t.h, t.w, fun c i j => 1 - t.pix c i j⟩

/-- Lines 85-87: the mask tensor derived from the loaded mask image. -/
def prepareMask (maskImg : T3) : T3 :=
  geThresh 122.5 (meanDim1 maskImg)

/-- Line 88: `masked_image = image * (1 - &mask)` on the normalized image,
with broadcasting. -/
def prepareMasked (image maskImg : T3) : Option T3 :=
  mulBC (normalizeImg image) (oneMinus (prepareMask maskImg))

/-- One entry of the masked image, when the shapes broadcast. -/
def maskedPix (image maskImg : T3) (c i j : ℕ) : Option ℚ :=
  (prepareMasked image maskImg).map fun t => t.pix c i j

/-- What claims C2 and C3 say the mask is (collapse channels via mean,
shape 1 by H by W): the mean over dimension 0,
then the same 122.5 threshold.  Kept for comparison with `prepareMask`. -/
def maskSpec (maskImg : T3) : T3 :=
  geThresh 122.5
    ⟨1, maskImg.h, maskImg.w,
      fun _ i j => (∑ c in Finset.range maskImg.c, maskImg.pix c i j) / (maskImg.c : ℚ)⟩

/-! ## Shape-level model of the unet input (main.rs lines 149-167) -/

structure Shape4 where
  n : ℕ
  c : ℕ
  h : ℕ
  w : ℕ
deriving DecidableEq

/-- `Tensor::cat(&[a, b], 0)`: batch extents add, every other extent must
agree. -/
def catDim0 (a b : Shape4) : Option Shape4 :=
  if a.c = b.c ∧ a.h = b.h ∧ a.w = b.w then
    some ⟨a.n + b.n, a.c, a.h, a.w⟩
  else none

/-- `Tensor::cat(&[a, b, c], 1)`: channel extents add, every other extent
must agree. -/
def catDim1 (a b cc : Shape4) : Option Shape4 :=
  if a.n = b.n ∧ b.n = cc.n ∧ a.h = b.h ∧ b.h = cc.h ∧ a.w = b.w ∧ b.w = cc.w then
    some ⟨a.n, a.c + b.c + cc.c, a.h, a.w⟩
  else none

/-- `unsqueeze(0)` of a rank-3 shape. -/
def unsqueeze0 (c h w : ℕ) : Shape4 :=
  ⟨1, c, h, w⟩

/-- `upsample_nearest2d(&[oh, ow], None, None)`: the two trailing spatial
extents are replaced by the requested output size. -/
def upsampleNearest2d (s : Shape4) (oh ow : ℕ) : Shape4 :=
  ⟨s.n, s.c, oh, ow⟩

/-- Modelled from the spec: the autoencoder (outside this repository) maps
an image batch to a 4-channel latent at one eighth of the spatial
resolution. -/
def vaeEncodeShape (s : Shape4) : Shape4 :=
  ⟨s.n, 4, s.h / 8, s.w / 8⟩

/-- Shape of the mask returned by `prepare_mask_and_masked_image` for a
mask image of shape mc by mh by mw: `mean_dim` over dimension 1 keeps the
channel extent and collapses the height to 1, then `unsqueeze(0)` adds the
batch dimension (lines 86-89). -/
def preparedMaskShape (mc mh mw : ℕ) : Shape4 :=
  unsqueeze0 (meanDim1 ⟨mc, mh, mw, fun _ _ _ => 0⟩).c
    (meanDim1 ⟨mc, mh, mw, fun _ _ _ => 0⟩).h
    (meanDim1 ⟨mc, mh, mw, fun _ _ _ => 0⟩).w

/-- Shape of the tensor handed to the unet at every denoising step, for a
512 by 512 RGB input image and a mask image of shape mc by mh by mw
(lines 151-167): resize the mask to HEIGHT/8 by WIDTH/8, duplicate it and
the masked-image latents and the current latents along the batch axis, then
concatenate along the channel axis. -/
def unetInputShape (mc mh mw : ℕ) : Option Shape4 :=
  let mask0 := upsampleNearest2d (preparedMaskShape mc mh mw) (HEIGHT / 8) (WIDTH / 8)
  let maskedLatents := vaeEncodeShape (unsqueeze0 3 512 512)
  let latents : Shape4 := ⟨1, 4, HEIGHT / 8, WIDTH / 8⟩
  match catDim0 mask0 mask0, catDim0 maskedLatents maskedLatents,
        catDim0 latents latents with
  | some mask2, some mil2, some lat2 => catDim1 lat2 mask2 mil2
  | _, _, _ => none

/-! ## Per-sample seeding and initial latents (main.rs lines 156-161)

Modelled from the spec: `tch::manual_seed` and the tensor library's random
draws (outside this repository) form a deterministic generator — a draw is
a pure function of the current generator state and leaves a new state.  The
generator is abstracted as any function `draw` from states to value and
successor state. -/

/-- Body of the per-sample loop, lines 157-161: `manual_seed(seed + idx)`
overwrites whatever generator state `g0` was inherited, then
`masked_image_dist.sample()` consumes one draw and `Tensor::randn` produces
the initial latents from the next. -/
def sampleBody (draw : ℤ → ℚ × ℤ) (seed idx : ℤ) (g0 : ℤ) : ℚ × ℤ :=
  let _ := g0
  let st := seed + idx
  let sampled := draw st
  let latents := draw sampled.2
  latents

/-- Initial latents of the sample at index idx. -/
def initLatents (draw : ℤ → ℚ × ℤ) (seed idx : ℤ) : ℚ :=
  (sampleBody draw seed idx 0).1

/-- One turn of the sample loop: execute the body on the inherited
generator state, append the sample's initial latents. -/
def runStep (draw : ℤ → ℚ × ℤ) (seed : ℤ) (acc : List ℚ × ℤ) (i : ℕ) : List ℚ × ℤ :=
  let r := sampleBody draw seed (i : ℤ) acc.2
  (acc.1 ++ [r.1], r.2)

/-- Lines 156-161 for the whole run: fold over sample indices 0 to n-1
threading the generator state, collecting each sample's initial latents. -/
def runSamples (draw : ℤ → ℚ × ℤ) (seed : ℤ) (n : ℕ) (g0 : ℤ) : List ℚ × ℤ :=
  (List.range n).foldl (runStep draw seed) ([], g0)

/-! ## Scheduler timesteps and the denoising loop (main.rs lines 123, 163-174) -/

/-- Modelled from the spec: the DDIM scheduler (outside this repository)
precomputes a schedule of exactly n_steps timesteps, strictly decreasing,
highest noise first; the numeric noise level attached to each position is
owned by the scheduler collaborator. -/
def ddimTimesteps (nSteps : ℕ) : List ℕ :=
  (List.range nSteps).reverse

/-- State carried through the denoising loop, instrumented with the number
of iterations performed and the text-embedding tensor passed to each unet
call. -/
structure LoopState where
  latents : ℚ
  iters : ℕ
  embTrace : List (List ℚ)

/-- One iteration of the loop body, lines 163-173: run the unet on the
duplicated latents with the fixed embeddings, split the prediction into the
unconditional and conditional halves, combine them with the guidance scale
and advance the scheduler. -/
def denoiseStep (unet : ℚ → ℕ → List ℚ → ℚ × ℚ) (schedStep : ℚ → ℕ → ℚ → ℚ)
    (emb : List ℚ) (s : LoopState) (t : ℕ) : LoopState :=
  let pred := unet s.latents t emb
  let noisePred := pred.1 + (pred.2 - pred.1) * GUIDANCE_SCALE
  ⟨schedStep noisePred t s.latents, s.iters + 1, s.embTrace ++ [emb]⟩

/-- The denoising loop: a fold over the scheduler's timestep list, with no
other exit. -/
def denoiseLoop (unet : ℚ → ℕ → List ℚ → ℚ × ℚ) (schedStep : ℚ → ℕ → ℚ → ℚ)
    (emb : List ℚ) (timesteps : List ℕ) (init : ℚ) : LoopState :=
  timesteps.foldl (denoiseStep unet schedStep emb) ⟨init, 0, []⟩

/-- Line 143: `Tensor::cat(&[uncond_embeddings, text_embeddings], 0)` — the
unconditional embedding first, the conditional one second, along the batch
axis (modelled as list append). -/
def textEmbeddings (encode : String → List ℚ) (prompt : String) : List ℚ :=
  encode "" ++ encode prompt

/-! ## Helper lemmas -/

lemma runStep_foldl (draw : ℤ → ℚ × ℤ) (seed : ℤ) :
    ∀ (l : List ℕ) (acc : List ℚ × ℤ),
      (l.foldl (runStep draw seed) acc).1
        = acc.1 ++ l.map (fun i => initLatents draw seed (i : ℤ))
  | [], acc => by simp
  | a :: l, acc => by
    rw [List.foldl_cons, runStep_foldl draw seed l]
    simp [runStep, initLatents, sampleBody]

lemma runSamples_fst (draw : ℤ → ℚ × ℤ) (seed : ℤ) (n : ℕ) (g0 : ℤ) :
    (runSamples draw seed n g0).1
      = (List.range n).map (fun i => initLatents draw seed (i : ℤ)) := by
  rw [runSamples, runStep_foldl]
  simp

lemma denoise_foldl_iters (unet : ℚ → ℕ → List ℚ → ℚ × ℚ)
    (schedStep : ℚ → ℕ → ℚ → ℚ) (emb : List ℚ) :
    ∀ (ts : List ℕ) (s : LoopState),
      (ts.foldl (denoiseStep unet schedStep emb) s).iters = s.iters + ts.length
  | [], s => by simp
  | t :: ts, s => by
    rw [List.foldl_cons, denoise_foldl_iters unet schedStep emb ts]
    simp [denoiseStep]
    omega

lemma denoise_foldl_embTrace (unet : ℚ → ℕ → List ℚ → ℚ × ℚ)
    (schedStep : ℚ → ℕ → ℚ → ℚ) (emb : List ℚ) :
    ∀ (ts : List ℕ) (s : LoopState),
      (ts.foldl (denoiseStep unet schedStep emb) s).embTrace
        = s.embTrace ++ List.replicate ts.length emb
  | [], s => by simp
  | t :: ts, s => by
    rw [List.foldl_cons, denoise_foldl_embTrace unet schedStep emb ts]
    simp [denoiseStep, List.replicate_succ]

/-! ## Claim theorems -/

/-- C1 counterexample: the claim says that with final_image given as out
(no extension separator) and two samples the first produced filename is
out.1 — but the code formats the no-separator case with a trailing png
extension, producing out.1.png. -/
theorem outputFilename_no_dot_counterexample :
    outputFilename ("out".toList) 2 0 = ("out.1.png".toList) ∧
    outputFilename ("out".toList) 2 0 ≠ ("out.1".toList) := by
  constructor <;> decide

/-- C1 (amended): with num_samples = 1 the filename is final_image
unchanged for every final_image and index; with out.png and three samples
the produced names are out.1.png, out.2.png, out.3.png; with out (no
extension separator) and two samples the produced names are out.1.png and
out.2.png — the 1-based index is inserted before the extension, and when no
separator exists the index and a png extension are appended. -/
theorem outputFilename_disambiguation :
    (∀ (s : List Char) (idx : ℕ), outputFilename s 1 idx = s) ∧
    outputFilename ("out.png".toList) 3 0 = ("out.1.png".toList) ∧
    outputFilename ("out.png".toList) 3 1 = ("out.2.png".toList) ∧
    outputFilename ("out.png".toList) 3 2 = ("out.3.png".toList) ∧
    outputFilename ("out".toList) 2 0 = ("out.1.png".toList) ∧
    outputFilename ("out".toList) 2 1 = ("out.2.png".toList) := by
  refine ⟨fun s idx => rfl, ?_, ?_, ?_, ?_, ?_⟩ <;> decide

/-- C4: the classifier-free guidance combination of main.rs lines 169-172
uses the fixed scale 7.5, collapses to the unconditional prediction when
the two halves agree, and is an affine function of the conditional half for
a fixed unconditional half. -/
theorem guidedNoise_spec {ι : Type} (u c₁ c₂ : ι → ℚ) (t : ℚ) (k : ι) :
    GUIDANCE_SCALE = 7.5 ∧
    guidedNoise u u = u ∧
    guidedNoise u c₁ k = GUIDANCE_SCALE * c₁ k + (1 - GUIDANCE_SCALE) * u k ∧
    guidedNoise u (fun j => t * c₁ j + (1 - t) * c₂ j) k
      = t * guidedNoise u c₁ k + (1 - t) * guidedNoise u c₂ k := by
  refine ⟨rfl, funext fun j => ?_, ?_, ?_⟩ <;>
    simp only [guidedNoise, GUIDANCE_SCALE] <;> ring

/-- C7: for every cpu override list, availability flag and component name,
`cpu_or_cuda` yields CPU exactly when the list names all or the component,
and otherwise the CUDA device when available, else CPU; the three
per-component devices are resolved from this one policy. -/
theorem cpuOrCuda_spec (cpu : List String) (avail : Bool) (componentName : String) :
    cpuOrCuda cpu avail componentName =
      (if "all" ∈ cpu ∨ componentName ∈ cpu then Device.Cpu
       else if avail then Device.Cuda else Device.Cpu) ∧
    resolveDevices cpu avail =
      (cpuOrCuda cpu avail "clip", cpuOrCuda cpu avail "vae", cpuOrCuda cpu avail "unet") := by
  refine ⟨?_, rfl⟩
  by_cases h : "all" ∈ cpu ∨ componentName ∈ cpu
  · have hany : cpu.any (fun c => c == "all" || c == componentName) = true := by
      rcases h with h | h
      · exact List.any_eq_true.mpr ⟨"all", h, by simp⟩
      · exact List.any_eq_true.mpr ⟨componentName, h, by simp⟩
    simp [cpuOrCuda, hany, h]
  · have hany : cpu.any (fun c => c == "all" || c == componentName) = false := by
      rw [List.any_eq_false]
      intro x hx
      simp only [Bool.or_eq_true, beq_iff_eq, not_or]
      push_neg at h
      exact ⟨fun hx' => h.1 (hx' ▸ hx), fun hx' => h.2 (hx' ▸ hx)⟩
    simp [cpuOrCuda, cudaIfAvailable, hany, h]

/-- C8 counterexample: the claim says the in-function fallback string is
never the prompt, but an invocation that passes exactly that string
produces it as the prompt. -/
theorem promptUsed_counterexample :
    promptUsed (parsedPrompt (some fallbackPrompt)) = fallbackPrompt := rfl

/-- C8 (amended): the parsed prompt option is always populated, so the
in-function fallback branch never determines the prompt: when the flag is
absent the prompt used is the fantasy-landscape default, and in general the
prompt used is the CLI value or that default. -/
theorem prompt_selection_spec (cli : Option String) :
    promptUsed (parsedPrompt none) = defaultPrompt ∧
    (parsedPrompt cli).isSome = true ∧
    promptUsed (parsedPrompt cli) = cli.getD defaultPrompt := by
  refine ⟨rfl, rfl, ?_⟩
  cases cli <;> rfl

/-- C5: in every run the list of per-sample initial latents is determined
by the base seed alone — the generator is reseeded with seed + idx before
any per-sample draw, so the inherited generator state is irrelevant, two
runs with the same parameters agree exactly, and sample i of an n-sample
run has the same initial latents as the single sample of a run whose base
seed is seed + i. -/
theorem seeding_determinism (draw : ℤ → ℚ × ℤ) (seed : ℤ) (g0 g1 : ℤ) (n : ℕ) :
    (runSamples draw seed n g0).1
      = (List.range n).map (fun i => initLatents draw seed (i : ℤ)) ∧
    (runSamples draw seed n g0).1 = (runSamples draw seed n g1).1 ∧
    (∀ i : ℤ, initLatents draw seed i = initLatents draw (seed + i) 0 ∧
      (runSamples draw (seed + i) 1 g1).1 = [initLatents draw seed i]) := by
  refine ⟨runSamples_fst draw seed n g0, ?_, fun i => ⟨?_, ?_⟩⟩
  · rw [runSamples_fst, runSamples_fst]
  · simp [initLatents, sampleBody]
  · have h1 : List.range 1 = [0] := rfl
    rw [runSamples_fst, h1]
    simp [initLatents, sampleBody]

/-- C6: the denoising loop performs exactly n_steps iterations, one per
entry of the scheduler's timestep sequence, which has exactly n_steps
entries in strictly decreasing order, and the fold has no other exit. -/
theorem denoiseLoop_iterations (unet : ℚ → ℕ → List ℚ → ℚ × ℚ)
    (schedStep : ℚ → ℕ → ℚ → ℚ) (emb : List ℚ) (init : ℚ) (nSteps : ℕ) :
    (ddimTimesteps nSteps).length = nSteps ∧
    List.Pairwise (fun a b => b < a) (ddimTimesteps nSteps) ∧
    (denoiseLoop unet schedStep emb (ddimTimesteps nSteps) init).iters = nSteps := by
  refine ⟨by simp [ddimTimesteps], ?_, ?_⟩
  · rw [ddimTimesteps, List.pairwise_reverse]
    exact List.pairwise_lt_range nSteps
  · rw [denoiseLoop, denoise_foldl_iters]
    simp [ddimTimesteps]

/-- C9: the embedding tensor handed to the denoiser is the unconditional
embedding concatenated before the conditional one along the batch axis, and
the very same tensor is passed at every iteration of the denoising loop. -/
theorem textEmbeddings_fixed (encode : String → List ℚ) (prompt : String)
    (unet : ℚ → ℕ → List ℚ → ℚ × ℚ) (schedStep : ℚ → ℕ → ℚ → ℚ)
    (ts : List ℕ) (init : ℚ) :
    textEmbeddings encode prompt = encode "" ++ encode prompt ∧
    (denoiseLoop unet schedStep (textEmbeddings encode prompt) ts init).embTrace
      = List.replicate ts.length (textEmbeddings encode prompt) := by
  refine ⟨rfl, ?_⟩
  rw [denoiseLoop, denoise_foldl_embTrace]
  simp

/-- C2 at a failing input: for the 1 by 1 mask image with RGB channel
values 255, 0, 0, the code's mask (mean over dimension 1, the rows, of the
channels-height-width tensor) keeps 3 channels and is 1 in channel 0, while
the channel-collapsed mask the claim describes has one channel of value 0;
the binary-output part of the claim does hold of the code. -/
theorem mask_mean_dim_bug :
    (prepareMask ⟨3, 1, 1, fun c _ _ => if c = 0 then 255 else 0⟩).c = 3 ∧
    (prepareMask ⟨3, 1, 1, fun c _ _ => if c = 0 then 255 else 0⟩).pix 0 0 0 = 1 ∧
    (maskSpec ⟨3, 1, 1, fun c _ _ => if c = 0 then 255 else 0⟩).c = 1 ∧
    (maskSpec ⟨3, 1, 1, fun c _ _ => if c = 0 then 255 else 0⟩).pix 0 0 0 = 0 ∧
    (∀ (m : T3) (c i j : ℕ),
      (prepareMask m).pix c i j = 0 ∨ (prepareMask m).pix c i j = 1) := by
  refine ⟨rfl, ?_, rfl, ?_, fun m c i j => ?_⟩
  · norm_num [prepareMask, geThresh, meanDim1, Finset.sum_range_one]
  · norm_num [maskSpec, geThresh, Finset.sum_range_succ]
  · exact Or.symm (ite_eq_or_eq _ _ _)

/-- C3 at a failing input: a constant-255 grayscale 2 by 1 image and a mask
image whose top row is 255 and bottom row 0.  The per-pixel mask of the
claim is 0 at the bottom pixel, whose normalized value is 1, so the claim
requires the masked image to be 1 there; the code instead collapses the
mask over the rows (giving a single row that broadcasts over the height)
and produces 0. -/
theorem masked_image_broadcast_bug :
    (maskSpec ⟨1, 2, 1, fun _ i _ => if i = 0 then 255 else 0⟩).pix 0 1 0 = 0 ∧
    (normalizeImg ⟨1, 2, 1, fun _ _ _ => 255⟩).pix 0 1 0 = 1 ∧
    (prepareMask ⟨1, 2, 1, fun _ i _ => if i = 0 then 255 else 0⟩).h = 1 ∧
    maskedPix ⟨1, 2, 1, fun _ _ _ => 255⟩
      ⟨1, 2, 1, fun _ i _ => if i = 0 then 255 else 0⟩ 0 1 0 = some 0 := by
  refine ⟨?_, ?_, rfl, ?_⟩
  · norm_num [maskSpec, geThresh, Finset.sum_range_one]
  · norm_num [normalizeImg]
  · simp only [maskedPix, prepareMasked, mulBC, bcOk, bcIdx, normalizeImg, oneMinus,
      prepareMask, geThresh, meanDim1]
    norm_num [Finset.sum_range_succ]

/-- C10 at a failing input: for an RGB (3-channel) mask image the tensor
handed to the unet has 2 by 11 by 64 by 64 shape — 4 latent channels plus 3
surviving mask channels plus 4 masked-image-latent channels — not the 9
channels the claim states; the nearest-neighbor resize of the mask does go
to the fixed 64 by 64 size whatever the mask image dimensions, and a
single-channel mask image yields 9 channels. -/
theorem unet_input_channels_bug :
    unetInputShape 3 512 512 = some ⟨2, 11, 64, 64⟩ ∧
    (11 : ℕ) ≠ 9 ∧
    (∀ mc mh mw : ℕ,
      (upsampleNearest2d (preparedMaskShape mc mh mw) (HEIGHT / 8) (WIDTH / 8)).h = 64 ∧
      (upsampleNearest2d (preparedMaskShape mc mh mw) (HEIGHT / 8) (WIDTH / 8)).w = 64) ∧
    unetInputShape 1 512 512 = some ⟨2, 9, 64, 64⟩ := by
  refine ⟨by decide, by decide, fun mc mh mw => ⟨rfl, rfl⟩, by decide⟩

end Inpaint
